import Mathlib

/-!
Shallow embedding of the hustle client module (`hustle/__init__.py`):
aggregation constructors, the canonical DDFS tag addressing functions,
table creation, blob resolution and the select orchestration, together
with theorems settling the specification claims about them.

Python conventions are made explicit: optional values are `Option`,
truthiness of an optional string is nonemptiness, truthiness of an
optional list is nonemptiness, and calls against the distributed store
are recorded in an explicit call trace.
-/

namespace Hustle

set_option maxRecDepth 8192

/-- Truthiness of an optional Python string: `None` and `''` are falsy. -/
def optTruthy : Option String → Bool
  | none => false
  | some s => s != ""

/-- Truthiness of a table's `_blobs` attribute: `None` and `[]` are falsy. -/
def cacheTruthy : Option (List (List String)) → Bool
  | none => false
  | some l => !l.isEmpty

/-- An aggregation as built by the `h_*` constructors: a name, a source
column name, the accumulate callback, the identity accumulator returned by
`default`, and the finalize callback. -/
structure Aggregation (α β γ : Type) where
  aggName : String
  column : String
  accumulate : α → β → α
  dflt : α
  finalize : α → γ

/-- `h_sum(col)`: accumulate is `lambda a, v: a + v`, default `0`,
finalize the identity (the `Aggregation` constructor's default). -/
def h_sum (col : String) : Aggregation Int Int Int :=
  { aggName := "sum"
    column := col
    accumulate := fun a v => a + v
    dflt := 0
    finalize := fun a => a }

/-- `h_count()`: its column is the constant selector `Column('all', ...)`;
accumulate is `lambda a, v: a + (v or 1)` where the column value may be
absent (`None`); default `0`; finalize the identity. -/
def h_count : Aggregation Int (Option Int) Int :=
  { aggName := "count"
    column := "all"
    accumulate := fun a v =>
      a + (match v with
           | none => 1
           | some x => if x = 0 then 1 else x)
    dflt := 0
    finalize := fun a => a }

/-- `h_avg(col)`: accumulate is `lambda (a, c), v: (a + v, c + 1)`,
finalize `lambda (a, c): float(a) / c` (modelled with exact rational
division), default `(0, 0)`. -/
def h_avg (col : String) : Aggregation (Int × Int) Int ℚ :=
  { aggName := "avg"
    column := col
    accumulate := fun ac v => (ac.1 + v, ac.2 + 1)
    dflt := (0, 0)
    finalize := fun ac => (ac.1 : ℚ) / (ac.2 : ℚ) }

/-- A binary merge tree: leaves hold raw column values, inner nodes are
pairwise merges of partial results performed by distributed workers. -/
inductive MergeTree where
  | leaf : Int → MergeTree
  | node : MergeTree → MergeTree → MergeTree

/-- The raw values at the leaves of a merge tree, left to right. -/
def MergeTree.leaves : MergeTree → List Int
  | .leaf v => [v]
  | .node l r => l.leaves ++ r.leaves

/-- Folding a merge tree with `h_sum`: each leaf value is accumulated into
a fresh `default()` accumulator, and inner nodes merge two partial
accumulators by reusing the accumulate callback. -/
def sumFold (col : String) : MergeTree → Int
  | .leaf v => (h_sum col).accumulate (h_sum col).dflt v
  | .node l r => (h_sum col).accumulate (sumFold col l) (sumFold col r)

/-- Folding a list of raw values with `h_avg`'s accumulate starting from
its `default()`. -/
def avgFold (col : String) (l : List Int) : Int × Int :=
  l.foldl (h_avg col).accumulate (h_avg col).dflt

/-- `Table.base_tag(name, partition, extension)`: the canonical addressing
key, `"hustle:" + name`, then `':' + extension` when the extension is
truthy, then `':' + partition` when the partition is truthy. -/
def base_tag (name : String) (partition : Option String) (extension : String) : String :=
  let rval := "hustle:" ++ name
  let rval := if extension != "" then rval ++ ":" ++ extension else rval
  if optTruthy partition then rval ++ ":" ++ (partition.getD "") else rval

/-- `part_tag(name, partition)`, the local helper defined inside
`insert`: `"hustle:" + name`, then `':' + partition` when truthy. -/
def part_tag (name : String) (partition : Option String) : String :=
  let rval := "hustle:" ++ name
  if optTruthy partition then rval ++ ":" ++ (partition.getD "") else rval

/- ------------------------------------------------------------------ -/
/- Claim C1: the count aggregation's accumulate.                       -/
/- ------------------------------------------------------------------ -/

/-- C1 counterexample: the claim says `h_count`'s accumulate increases the
accumulator by exactly 1 for every value, but at accumulator 0 and value 2
the code computes `0 + (2 or 1) = 2`, not 1. -/
theorem h_count_accumulate_not_always_one :
    ¬ (h_count.accumulate 0 (some 2) = 0 + 1) := by decide

/-- C1 (amended): `h_count`'s accumulate adds 1 when the value is absent
(`None`) or falsy (`0`), and otherwise adds the value itself — the code is
`a + (v or 1)`, which also lets accumulate merge two partial counts. -/
theorem h_count_accumulate_or_one (a : Int) :
    h_count.accumulate a none = a + 1 ∧
    h_count.accumulate a (some 0) = a + 1 ∧
    ∀ v : Int, v ≠ 0 → h_count.accumulate a (some v) = a + v := by
  refine ⟨rfl, rfl, ?_⟩
  intro v hv
  simp [h_count, hv]

/-- C1 witness: the amended statement evaluated at accumulator 5 and the
concrete values `None` and `7`. -/
theorem h_count_accumulate_or_one_witness :
    h_count.accumulate 5 none = 5 + 1 ∧ h_count.accumulate 5 (some 7) = 5 + 7 :=
  ⟨(h_count_accumulate_or_one 5).1, (h_count_accumulate_or_one 5).2.2 7 (by decide)⟩

/- ------------------------------------------------------------------ -/
/- Claim C2: merge-order independence for sum and avg.                 -/
/- ------------------------------------------------------------------ -/

/-- Folding a merge tree with `h_sum` computes the plain sum of its
leaves, whatever the tree shape. -/
theorem sumFold_eq_sum_leaves (col : String) (t : MergeTree) :
    sumFold col t = t.leaves.sum := by
  induction t with
  | leaf v => simp [sumFold, MergeTree.leaves, h_sum]
  | node l r ihl ihr => simp [sumFold, MergeTree.leaves, h_sum, ihl, ihr]

/-- Folding values into `h_avg`'s accumulator from any start adds the list
sum to the first component and the list length to the second. -/
theorem avg_foldl_eq (col : String) (l : List Int) (a c : Int) :
    l.foldl (h_avg col).accumulate (a, c) = (a + l.sum, c + l.length) := by
  induction l generalizing a c with
  | nil => simp
  | cons x xs ih =>
    rw [List.foldl_cons]
    have hstep : (h_avg col).accumulate (a, c) x = (a + x, c + 1) := by
      simp [h_avg]
    rw [hstep, ih]
    simp only [List.sum_cons, List.length_cons, Prod.mk.injEq, Nat.cast_add, Nat.cast_one]
    omega

/-- C2: every associative grouping of pairwise `h_sum` merges of the
values 3, −1, 4, 1, 5 yields 12, and folding 2, 4, 6 with `h_avg`'s
accumulate from its default yields the accumulator (12, 3) in every fold
order, with finalize mapping (12, 3) to 4. -/
theorem aggregation_merge_order_independent (col : String) (t : MergeTree) (l : List Int)
    (ht : t.leaves.Perm [3, -1, 4, 1, 5]) (hl : l.Perm [2, 4, 6]) :
    sumFold col t = 12 ∧ avgFold col l = (12, 3) ∧ (h_avg col).finalize (12, 3) = 4 := by
  refine ⟨?_, ?_, ?_⟩
  · rw [sumFold_eq_sum_leaves, ht.sum_eq]; decide
  · have h := avg_foldl_eq col l 0 0
    rw [avgFold, h_avg] at *
    rw [h, hl.sum_eq, hl.length_eq]
    decide
  · norm_num [h_avg]

/-- C2 witness: a concrete right-leaning merge tree over 3, −1, 4, 1, 5
and the reversed value list 6, 4, 2. -/
theorem aggregation_merge_order_independent_witness :
    sumFold "v" (.node (.node (.leaf 3) (.leaf (-1)))
      (.node (.leaf 4) (.node (.leaf 1) (.leaf 5)))) = 12 ∧
    avgFold "v" [6, 4, 2] = (12, 3) ∧ (h_avg "v").finalize (12, 3) = 4 :=
  aggregation_merge_order_independent "v"
    (.node (.node (.leaf 3) (.leaf (-1))) (.node (.leaf 4) (.node (.leaf 1) (.leaf 5))))
    [6, 4, 2] (by decide) (by decide)

/- ------------------------------------------------------------------ -/
/- Claim C7: shape of the canonical addressing key.                    -/
/- ------------------------------------------------------------------ -/

/-- C7: `base_tag(name)` (partition `None`, empty extension) is the fixed
prefix followed by the table name; for every non-empty partition value p,
`base_tag(name, p)` is `base_tag(name)` followed by `':'` and p; and with
a non-empty extension the key is prefix, name, extension, partition joined
by `':'`. -/
theorem base_tag_format (name p ext : String) (hp : p ≠ "") (he : ext ≠ "") :
    base_tag name none "" = "hustle:" ++ name ∧
    base_tag name (some p) "" = base_tag name none "" ++ ":" ++ p ∧
    base_tag name (some p) ext = "hustle:" ++ name ++ ":" ++ ext ++ ":" ++ p := by
  refine ⟨rfl, ?_, ?_⟩
  · simp [base_tag, optTruthy, hp]
  · simp [base_tag, optTruthy, hp, he]

/-- C7 witness: the format at name `employees`, partition `2014-02-21`,
extension `meta`. -/
theorem base_tag_format_witness :
    base_tag "employees" none "" = "hustle:" ++ "employees" ∧
    base_tag "employees" (some "2014-02-21") "" =
      base_tag "employees" none "" ++ ":" ++ "2014-02-21" ∧
    base_tag "employees" (some "2014-02-21") "meta" =
      "hustle:" ++ "employees" ++ ":" ++ "meta" ++ ":" ++ "2014-02-21" :=
  base_tag_format "employees" "2014-02-21" "meta" (by decide) (by decide)

/- ------------------------------------------------------------------ -/
/- Claim C8: part_tag agrees with base_tag.                            -/
/- ------------------------------------------------------------------ -/

/-- C8: the local `part_tag` helper inside `insert` produces exactly the
same key as the canonical `Table.base_tag` with no extension, for every
table name and every partition value. -/
theorem part_tag_eq_base_tag (name : String) (partition : Option String) :
    part_tag name partition = base_tag name partition "" := rfl

/- ------------------------------------------------------------------ -/
/- The distributed store, tables and blob resolution.                  -/
/- ------------------------------------------------------------------ -/

/-- A persisted metadata value: the serialized field-spec list under the
`_fields_` key or the serialized partition column name under `_partition_`. -/
inductive AttrVal where
  | fieldsVal (fields : List String)
  | partitionVal (partition : Option String)
deriving DecidableEq

/-- One call against the distributed tag/blob store (DDFS). -/
inductive StoreCall where
  | listTags (tag : String)
  | blobReplicas (tag : String)
  | tagCheck (tag : String)
  | setAttr (tag key : String) (value : AttrVal)
deriving DecidableEq

/-- Whether a store call is a metadata write (`ddfs.setattr`). -/
def StoreCall.isSetAttr : StoreCall → Bool
  | .setAttr _ _ _ => true
  | _ => false

/-- The distributed store interface used by this module: tag listing by
prefix, replica blob sets of a tag, and tag existence. -/
structure DDFS where
  listTags : String → List String
  blobReplicas : String → List (List String)
  tagCheck : String → Bool

/-- A hustle table as this module sees it: its name, its field-spec
strings, its `_partition_` column name and its `_blobs` attribute, which
`Table.__init__` sets to `None` and a nested query result fills in. -/
structure TableData where
  name : String
  fields : List String
  partitionCol : Option String
  blobsCache : Option (List (List String))
deriving DecidableEq

/-- A where clause bound to a table: carries the table and its
`partition(tags)` narrowing callback. -/
structure WhereExpr where
  table : TableData
  partitionFilter : List String → List String

/-- The argument to `_get_blobs`: a bare table, or a where-clause
expression (detected in the source by `hasattr(table_or_expr, 'table')`). -/
inductive TableOrExpr where
  | bare : TableData → TableOrExpr
  | expr : WhereExpr → TableOrExpr

/-- The table a `_get_blobs` argument refers to. -/
def TableOrExpr.table : TableOrExpr → TableData
  | .bare t => t
  | .expr w => w.table

/-- Modelled from the spec: `where._name` on a where clause (defined in
`hustle.core.marble`, outside this module) is the name of the table the
predicate is bound to — the job name is the concatenation of the
predicate table names. -/
def TableOrExpr.refName : TableOrExpr → String
  | .bare t => t.name
  | .expr w => w.table.name

/-- The fallthrough branch of `_get_blobs`: list every tag under the base
key and extend the result with each tag's replica blobs. -/
def get_blobs_all (table : TableData) (ddfs : DDFS) :
    List (List String) × List StoreCall :=
  let tags := ddfs.listTags (base_tag table.name none "")
  let blobs := tags.foldl (fun r tag => r ++ ddfs.blobReplicas tag) []
  (blobs, StoreCall.listTags (base_tag table.name none "") :: tags.map StoreCall.blobReplicas)

/-- The partition-pruning branch of `_get_blobs`: list the tags under the
partition-key prefix, strip the prefix, narrow through the predicate's
`partition` callback, rebuild each surviving tag and extend the result
with its replica blobs. -/
def get_blobs_part (w : WhereExpr) (ddfs : DDFS) :
    List (List String) × List StoreCall :=
  let basetag := base_tag w.table.name none "" ++ ":"
  let listed := ddfs.listTags basetag
  let tags := listed.map (fun tag => tag.drop basetag.length)
  let seltags := (w.partitionFilter tags).map (fun part => base_tag w.table.name (some part) "")
  let rval := seltags.foldl (fun r tag => r ++ ddfs.blobReplicas tag) []
  (rval, StoreCall.listTags basetag :: seltags.map StoreCall.blobReplicas)

/-- `_get_blobs(table_or_expr, ddfs)`: return the materialized `_blobs`
when truthy; else prune partitions when a where clause is bound and the
table is partitioned; else resolve everything under the base tag. The
second component records the store calls performed. -/
def get_blobs (toe : TableOrExpr) (ddfs : DDFS) :
    List (List String) × List StoreCall :=
  match toe with
  | .bare table =>
    if cacheTruthy table.blobsCache then (table.blobsCache.getD [], [])
    else get_blobs_all table ddfs
  | .expr w =>
    if cacheTruthy w.table.blobsCache then (w.table.blobsCache.getD [], [])
    else if optTruthy w.table.partitionCol then get_blobs_part w ddfs
    else get_blobs_all w.table ddfs

/-- `Table.create(name, fields, partition, force)`: skip with the `None`
sentinel when the base tag exists and `force` is false; otherwise persist
the field list and the partition name under the base tag and return the
new table. The second component records the store calls performed. -/
def createTable (ddfs : DDFS) (name : String) (fields : List String)
    (partition : Option String) (force : Bool) :
    Option TableData × List StoreCall :=
  let tag := base_tag name none ""
  let write : Option TableData × List StoreCall :=
    (some ⟨name, fields, partition, none⟩,
      [StoreCall.tagCheck tag,
       StoreCall.setAttr tag "_fields_" (.fieldsVal fields),
       StoreCall.setAttr tag "_partition_" (.partitionVal partition)])
  if ddfs.tagCheck tag then
    if force then write else (none, [StoreCall.tagCheck tag])
  else write

/- ------------------------------------------------------------------ -/
/- Claim C3: materialized blob sets short-circuit resolution.          -/
/- ------------------------------------------------------------------ -/

/-- C3 counterexample: a table whose `_blobs` attribute was set to the
empty list (a materialized but empty blob set) does not short-circuit:
`if table._blobs:` is a truthiness test, so the code falls through and
performs store calls, returning the store's blobs instead of the cache. -/
theorem get_blobs_empty_cache_not_returned :
    get_blobs (.bare ⟨"t", [], none, some []⟩)
      ⟨fun _ => ["hustle:t"], fun _ => [["b1"]], fun _ => true⟩ ≠
      (([] : List (List String)), ([] : List StoreCall)) := by decide

/-- C3 (amended): for every table whose materialized `_blobs` set is
truthy (set and non-empty), `_get_blobs` returns it unchanged and
performs no store calls. -/
theorem get_blobs_cached (toe : TableOrExpr) (ddfs : DDFS)
    (h : cacheTruthy toe.table.blobsCache = true) :
    get_blobs toe ddfs = (toe.table.blobsCache.getD [], []) := by
  cases toe with
  | bare t => simp [get_blobs, TableOrExpr.table] at h ⊢; simp [h]
  | expr w => simp [get_blobs, TableOrExpr.table] at h ⊢; simp [h]

/-- C3 witness: a table carrying one materialized blob is returned as-is
with an empty call trace, against a store that would answer differently. -/
theorem get_blobs_cached_witness :
    cacheTruthy (TableOrExpr.table (.bare ⟨"t", [], none, some [["x"]]⟩)).blobsCache = true ∧
    get_blobs (.bare ⟨"t", [], none, some [["x"]]⟩)
      ⟨fun _ => ["hustle:t"], fun _ => [["b1"]], fun _ => true⟩ =
      ([["x"]], []) :=
  ⟨by decide,
   get_blobs_cached (.bare ⟨"t", [], none, some [["x"]]⟩)
     ⟨fun _ => ["hustle:t"], fun _ => [["b1"]], fun _ => true⟩ (by decide)⟩

/- ------------------------------------------------------------------ -/
/- Claim C4: the partition-pruning branch.                             -/
/- ------------------------------------------------------------------ -/

/-- Extending an accumulator list tag by tag is the flattening of the
per-tag blob lists. -/
theorem foldl_append_eq_flatten {α β : Type} (f : α → List β) (l : List α) (init : List β) :
    l.foldl (fun r a => r ++ f a) init = init ++ (l.map f).flatten := by
  induction l generalizing init with
  | nil => simp
  | cons x xs ih => simp [ih]

/-- C4: with no truthy materialized blob set, a bound where clause and a
partitioned table, `_get_blobs` lists the tags under the partition-key
prefix (base tag plus `':'`), strips that prefix to get the observed
partition values, narrows them through the predicate's `partition`
callback, resolves each surviving partition tag to its replica blobs and
returns their concatenation, having called the store exactly for that
listing and those blob resolutions. -/
theorem get_blobs_partition_pruning (w : WhereExpr) (ddfs : DDFS)
    (hc : cacheTruthy w.table.blobsCache = false)
    (hp : optTruthy w.table.partitionCol = true) :
    get_blobs (.expr w) ddfs =
      (((w.partitionFilter ((ddfs.listTags (base_tag w.table.name none "" ++ ":")).map
          (fun tag => tag.drop (base_tag w.table.name none "" ++ ":").length))).map
            (fun part => base_tag w.table.name (some part) "")).map ddfs.blobReplicas
        |>.flatten,
       StoreCall.listTags (base_tag w.table.name none "" ++ ":") ::
        ((w.partitionFilter ((ddfs.listTags (base_tag w.table.name none "" ++ ":")).map
          (fun tag => tag.drop (base_tag w.table.name none "" ++ ":").length))).map
            (fun part => base_tag w.table.name (some part) "")).map StoreCall.blobReplicas) := by
  simp only [get_blobs, hc, hp, Bool.false_eq_true, if_false, if_true]
  rw [get_blobs_part]
  simp only [foldl_append_eq_flatten, List.nil_append]

/-- C4 witness: a partitioned table with an identity pruning callback
against a store holding one partition tag whose blobs are the tag itself. -/
theorem get_blobs_partition_pruning_witness :
    cacheTruthy (WhereExpr.table ⟨⟨"t", [], some "date", none⟩, fun l => l⟩).blobsCache = false ∧
    optTruthy (WhereExpr.table ⟨⟨"t", [], some "date", none⟩, fun l => l⟩).partitionCol = true ∧
    get_blobs (.expr ⟨⟨"t", [], some "date", none⟩, fun l => l⟩)
      ⟨fun _ => ["hustle:t:p1"], fun tag => [[tag]], fun _ => true⟩ =
      ([["hustle:t:p1"]],
       [StoreCall.listTags "hustle:t:", StoreCall.blobReplicas "hustle:t:p1"]) :=
  ⟨by decide, by decide,
   (get_blobs_partition_pruning ⟨⟨"t", [], some "date", none⟩, fun l => l⟩
     ⟨fun _ => ["hustle:t:p1"], fun tag => [[tag]], fun _ => true⟩
     (by decide) (by decide)).trans (by decide)⟩

/- ------------------------------------------------------------------ -/
/- Claim C5: create on an existing table without force.                -/
/- ------------------------------------------------------------------ -/

/-- C5: when the base tag already exists and `force` is false,
`Table.create` returns the `None` skip sentinel and performs no
`setattr` call, leaving the persisted metadata untouched. -/
theorem createTable_existing_skips (ddfs : DDFS) (name : String)
    (fields : List String) (partition : Option String)
    (h : ddfs.tagCheck (base_tag name none "") = true) :
    (createTable ddfs name fields partition false).1 = none ∧
    (createTable ddfs name fields partition false).2.all
      (fun c => ! c.isSetAttr) = true := by
  simp [createTable, h, StoreCall.isSetAttr]

/-- C5 witness: creating table `t` without force against a store where
its base tag exists yields the sentinel and a write-free trace. -/
theorem createTable_existing_skips_witness :
    DDFS.tagCheck ⟨fun _ => [], fun _ => [], fun _ => true⟩ (base_tag "t" none "") = true ∧
    (createTable ⟨fun _ => [], fun _ => [], fun _ => true⟩ "t" ["+$k"] none false).1 = none ∧
    (createTable ⟨fun _ => [], fun _ => [], fun _ => true⟩ "t" ["+$k"] none false).2.all
      (fun c => ! c.isSetAttr) = true :=
  ⟨by decide,
   createTable_existing_skips ⟨fun _ => [], fun _ => [], fun _ => true⟩ "t" ["+$k"] none
     (by decide)⟩

/- ------------------------------------------------------------------ -/
/- The select orchestration.                                           -/
/- ------------------------------------------------------------------ -/

/-- Insertion into an ascending sorted list of strings, by lexicographic
comparison. -/
def insertSorted (x : String) : List String → List String
  | [] => [x]
  | y :: ys => if compare x y == Ordering.gt then y :: insertSorted x ys else x :: y :: ys

/-- Python's `sorted` on a list of strings, ascending. -/
def sortStrings (l : List String) : List String := l.foldr insertSorted []

/-- The immutable query specification handed to `SelectPipe`. -/
structure SelectPipeSpec where
  wheres : List TableOrExpr
  project : List String
  orderBy : List String
  joinCols : List (String × String)
  distinct : Bool
  descFlag : Bool
  limit : Option Int
  partitionHint : Int
  nest : Bool

/-- One job submitted to the external execution engine: its name, its
input blob set and its query specification. -/
structure JobSubmission where
  jobName : String
  input : Finset (List String)
  spec : SelectPipeSpec

/-- What a `select` call returns to the caller: the `None` sentinel, a
nested result table, or the raw result blob sequence. -/
inductive SelectReturn where
  | noResult
  | nested (t : TableData)
  | resultBlobs (bs : List (List String))

/-- `select(*project, **kwargs)`: clamp a negative partition hint to
zero, validate through `check_query` (returning the `None` sentinel with
no submission when it raises), derive the job name from the joined,
64-truncated predicate table names, collect the input blob set through
`_get_blobs` (each replica group sorted, union over the where clauses),
submit one job and post-process its result according to the `nest` and
`dump` settings. `check_query`, the engine's `wait` and
`get_result_schema` live outside this module and are taken as
parameters. -/
def select
    (checkQuery : List String → List (String × String) → List String →
      Option Int → List TableOrExpr → Except String Unit)
    (engineWait : JobSubmission → List (List String))
    (engineSchema : List String → TableData)
    (ddfs : DDFS)
    (project : List String) (wheres : List TableOrExpr)
    (orderBy : List String) (joinCols : List (String × String))
    (distinct descFlag : Bool) (limit : Option Int)
    (partitionHint : Int) (nest autodump : Bool) :
    SelectReturn × List JobSubmission :=
  let partition := if partitionHint < 0 then 0 else partitionHint
  match checkQuery project joinCols orderBy limit wheres with
  | .error _ => (.noResult, [])
  | .ok _ =>
    let name := (String.intercalate "-" (wheres.map TableOrExpr.refName)).take 64
    let jobBlobs := wheres.foldl
      (fun s w => s ∪ ((get_blobs w ddfs).1.map sortStrings).toFinset) ∅
    let job : JobSubmission :=
      { jobName := "select_from_" ++ name
        input := jobBlobs
        spec := { wheres := wheres, project := project, orderBy := orderBy,
                  joinCols := joinCols, distinct := distinct, descFlag := descFlag,
                  limit := limit, partitionHint := partition, nest := nest } }
    let blobs := engineWait job
    let ret : SelectReturn :=
      if nest then .nested { engineSchema project with blobsCache := some blobs }
      else if autodump then .noResult
      else .resultBlobs blobs
    (ret, [job])

/-- The job name the specification describes: predicate table names
sorted, joined with `'-'` and truncated to 64 characters. -/
def sortedJobName (names : List String) : String :=
  (String.intercalate "-" (sortStrings names)).take 64

/- ------------------------------------------------------------------ -/
/- Claim C6: validation failures return the sentinel, submit nothing.  -/
/- ------------------------------------------------------------------ -/

/-- C6: whenever `check_query` raises a validation error, `select`
catches it, returns the no-result sentinel `None`, and submits no job to
the execution engine. -/
theorem select_invalid_query_no_job
    (checkQuery : List String → List (String × String) → List String →
      Option Int → List TableOrExpr → Except String Unit)
    (engineWait : JobSubmission → List (List String))
    (engineSchema : List String → TableData) (ddfs : DDFS)
    (project : List String) (wheres : List TableOrExpr)
    (orderBy : List String) (joinCols : List (String × String))
    (distinct descFlag : Bool) (limit : Option Int)
    (partitionHint : Int) (nest autodump : Bool) (msg : String)
    (h : checkQuery project joinCols orderBy limit wheres = Except.error msg) :
    select checkQuery engineWait engineSchema ddfs project wheres orderBy joinCols
      distinct descFlag limit partitionHint nest autodump = (.noResult, []) := by
  simp [select, h]

/-- C6 witness: a validator that always raises makes a concrete `select`
call return the sentinel with an empty submission list. -/
theorem select_invalid_query_no_job_witness :
    (fun (_ : List String) (_ : List (String × String)) (_ : List String)
        (_ : Option Int) (_ : List TableOrExpr) =>
      (Except.error "Invalid query" : Except String Unit)) [] [] [] none [] =
      Except.error "Invalid query" ∧
    select
      (fun _ _ _ _ _ => Except.error "Invalid query")
      (fun _ => []) (fun _ => ⟨"r", [], none, none⟩)
      ⟨fun _ => [], fun _ => [], fun _ => true⟩
      [] [] [] [] false false none 0 false false = (.noResult, []) :=
  ⟨rfl,
   select_invalid_query_no_job
     (fun _ _ _ _ _ => Except.error "Invalid query")
     (fun _ => []) (fun _ => ⟨"r", [], none, none⟩)
     ⟨fun _ => [], fun _ => [], fun _ => true⟩
     [] [] [] [] false false none 0 false false "Invalid query" rfl⟩

/- ------------------------------------------------------------------ -/
/- Claim C9: the job name.                                             -/
/- ------------------------------------------------------------------ -/

/-- C9 counterexample: the claim says the job name is derived from the
sorted table names, but a `select` over predicates on tables `b` then `a`
submits a job named from the names in the given order (`b-a`), not the
sorted order (`a-b`). -/
theorem select_job_name_not_sorted :
    ((select (fun _ _ _ _ _ => Except.ok ()) (fun _ => [])
        (fun _ => ⟨"r", [], none, none⟩)
        ⟨fun _ => [], fun _ => [], fun _ => true⟩
        [] [.bare ⟨"b", [], none, none⟩, .bare ⟨"a", [], none, none⟩]
        [] [] false false none 0 false false).2.map JobSubmission.jobName) ≠
      ["select_from_" ++ sortedJobName ["b", "a"]] := by
  have e1 : ((select (fun _ _ _ _ _ => Except.ok ()) (fun _ => [])
      (fun _ => ⟨"r", [], none, none⟩)
      ⟨fun _ => [], fun _ => [], fun _ => true⟩
      [] [.bare ⟨"b", [], none, none⟩, .bare ⟨"a", [], none, none⟩]
      [] [] false false none 0 false false).2.map JobSubmission.jobName) =
      ["select_from_b-a"] := rfl
  have e2 : "select_from_" ++ sortedJobName ["b", "a"] = "select_from_a-b" := rfl
  rw [e1, e2]
  decide

/-- C9 (amended): for every `select` call passing validation, the single
submitted job is named from the predicate table names in the order given,
joined with `'-'` and truncated to 64 characters (then prefixed with
`select_from_`); the names are not sorted first. -/
theorem select_job_name_joined_truncated
    (checkQuery : List String → List (String × String) → List String →
      Option Int → List TableOrExpr → Except String Unit)
    (engineWait : JobSubmission → List (List String))
    (engineSchema : List String → TableData) (ddfs : DDFS)
    (project : List String) (wheres : List TableOrExpr)
    (orderBy : List String) (joinCols : List (String × String))
    (distinct descFlag : Bool) (limit : Option Int)
    (partitionHint : Int) (nest autodump : Bool)
    (h : checkQuery project joinCols orderBy limit wheres = Except.ok ()) :
    ((select checkQuery engineWait engineSchema ddfs project wheres orderBy joinCols
        distinct descFlag limit partitionHint nest autodump).2.map JobSubmission.jobName) =
      ["select_from_" ++
        (String.intercalate "-" (wheres.map TableOrExpr.refName)).take 64] := by
  simp [select, h]

/-- C9 witness: for predicates over tables `b` then `a`, the submitted
job is named `select_from_b-a`. -/
theorem select_job_name_joined_truncated_witness :
    ((select (fun _ _ _ _ _ => Except.ok ()) (fun _ => [])
        (fun _ => ⟨"s", [], none, none⟩)
        ⟨fun _ => [], fun _ => [], fun _ => false⟩
        [] [.bare ⟨"b", [], none, none⟩, .bare ⟨"a", [], none, none⟩]
        [] [] false false none 0 false false).2.map JobSubmission.jobName) =
      ["select_from_b-a"] :=
  (select_job_name_joined_truncated (fun _ _ _ _ _ => Except.ok ()) (fun _ => [])
    (fun _ => ⟨"s", [], none, none⟩)
    ⟨fun _ => [], fun _ => [], fun _ => false⟩
    [] [.bare ⟨"b", [], none, none⟩, .bare ⟨"a", [], none, none⟩]
    [] [] false false none 0 false false rfl).trans rfl

/- ------------------------------------------------------------------ -/
/- Claim C10: the negative partition hint is clamped to zero.          -/
/- ------------------------------------------------------------------ -/

/-- C10: `select` clamps a negative partition hint to zero — with a
negative hint it behaves identically to the same call with hint 0 — and
passes a non-negative hint through unchanged into the submitted query
specification. -/
theorem select_clamps_negative_partition
    (checkQuery : List String → List (String × String) → List String →
      Option Int → List TableOrExpr → Except String Unit)
    (engineWait : JobSubmission → List (List String))
    (engineSchema : List String → TableData) (ddfs : DDFS)
    (project : List String) (wheres : List TableOrExpr)
    (orderBy : List String) (joinCols : List (String × String))
    (distinct descFlag : Bool) (limit : Option Int)
    (p : Int) (nest autodump : Bool) :
    (p < 0 →
      select checkQuery engineWait engineSchema ddfs project wheres orderBy joinCols
        distinct descFlag limit p nest autodump =
      select checkQuery engineWait engineSchema ddfs project wheres orderBy joinCols
        distinct descFlag limit 0 nest autodump) ∧
    (0 ≤ p →
      ((select checkQuery engineWait engineSchema ddfs project wheres orderBy joinCols
          distinct descFlag limit p nest autodump).2.all
        (fun j => j.spec.partitionHint == p)) = true) := by
  constructor
  · intro h
    simp [select, h]
  · intro h
    rcases hcq : checkQuery project joinCols orderBy limit wheres with msg | u
    · simp [select, hcq]
    · simp [select, hcq, if_neg (not_lt.mpr h)]

/-- C10 witness: with hint −5 the call equals the call with hint 0, and
with hint 3 the submitted specification carries hint 3. -/
theorem select_clamps_negative_partition_witness :
    (select (fun _ _ _ _ _ => Except.ok ()) (fun _ => [])
        (fun _ => ⟨"r", [], none, none⟩)
        ⟨fun _ => [], fun _ => [], fun _ => true⟩
        [] [.bare ⟨"t", [], none, none⟩] [] [] false false none (-5) false false =
      select (fun _ _ _ _ _ => Except.ok ()) (fun _ => [])
        (fun _ => ⟨"r", [], none, none⟩)
        ⟨fun _ => [], fun _ => [], fun _ => true⟩
        [] [.bare ⟨"t", [], none, none⟩] [] [] false false none 0 false false) ∧
    ((select (fun _ _ _ _ _ => Except.ok ()) (fun _ => [])
        (fun _ => ⟨"r", [], none, none⟩)
        ⟨fun _ => [], fun _ => [], fun _ => true⟩
        [] [.bare ⟨"t", [], none, none⟩] [] [] false false none 3 false false).2.all
      (fun j => j.spec.partitionHint == 3)) = true :=
  ⟨(select_clamps_negative_partition (fun _ _ _ _ _ => Except.ok ()) (fun _ => [])
      (fun _ => ⟨"r", [], none, none⟩)
      ⟨fun _ => [], fun _ => [], fun _ => true⟩
      [] [.bare ⟨"t", [], none, none⟩] [] [] false false none (-5) false false).1
      (by decide),
   (select_clamps_negative_partition (fun _ _ _ _ _ => Except.ok ()) (fun _ => [])
      (fun _ => ⟨"r", [], none, none⟩)
      ⟨fun _ => [], fun _ => [], fun _ => true⟩
      [] [.bare ⟨"t", [], none, none⟩] [] [] false false none 3 false false).2
      (by decide)⟩

end Hustle
